import Mathlib

/-!
# Verification of the bili-sync download-orchestration core

Shallow embedding of the parts of the `bili-sync` repository that the
verified claims are about, together with proofs of the claims.

The embedding follows the Rust sources under `src/crates/bili_sync/`:
* `utils/status.rs` is not part of the provided sources; the Status codec
  (`VideoStatus` / `PageStatus`, `update_status`, `reset_failed`,
  `force_reset_failed` and the query-builder predicates) is modelled from
  the specification (§4.1 and §4.4), as flagged in each doc comment.
* External collaborators (HTTP, filesystem, cron parser, clock) are
  passed in as explicit parameters, so every definition stays executable.
-/

namespace BiliSync

set_option maxRecDepth 4096

/-! ## Status codec (modelled from the spec)

`download_status` packs five 3-bit subtask slots into an unsigned word,
slot 0 in the lowest 3 bits.  The codec itself lives in
`utils/status.rs`, which is not among the provided sources, so the
operations below are modelled from spec §4.1 / §4.4. -/

/-- Modelled from the spec: decode a status word into its five subtask
slots (3 bits per slot, slot 0 in the LSB).  `utils/status.rs` is not in
the provided sources. -/
def decodeStatus (w : Nat) : List Nat :=
  [w % 8, w / 8 % 8, w / 64 % 8, w / 512 % 8, w / 4096 % 8]

/-- Modelled from the spec: encode five subtask slots back into a status
word, slot 0 occupying the lowest 3 bits. -/
def encodeStatus (s : List Nat) : Nat :=
  s.getD 0 0 + 8 * s.getD 1 0 + 64 * s.getD 2 0 + 512 * s.getD 3 0 + 4096 * s.getD 4 0

/-- Slot accessor on a decoded status (mirrors `Status::get`). -/
def statusGet (s : List Nat) (i : Nat) : Nat := s.getD i 0

/-- Slot update on a decoded status (mirrors `Status::set`). -/
def statusSet (s : List Nat) (i : Nat) (v : Nat) : List Nat := s.set i v

/-- Result of one subtask execution (`crate::error::ExecutionStatus`).
The error payloads carried by `Ignored` / `Failed` in Rust are only used
for logging and are dropped here. -/
inductive ExecutionStatus where
  | skipped
  | succeeded
  | ignored
  | failed
  | fixed (v : Nat)
deriving DecidableEq, Repr

/-- Whether a result is the `Fixed` sentinel (asserted `unreachable!` for
ordinary subtask returns by the retry endpoints). -/
def ExecutionStatus.isFixed : ExecutionStatus → Bool
  | .fixed _ => true
  | _ => false

/-- Modelled from the spec (§4.4 table): how one slot advances for one
subtask result.  `Skipped` / `Succeeded` / `Ignored` are terminal (7),
`Failed` bumps the attempt counter saturating at 6, `Fixed v` writes `v`
verbatim. -/
def advanceSlot (prev : Nat) : ExecutionStatus → Nat
  | .skipped => 7
  | .succeeded => 7
  | .ignored => 7
  | .failed => min (prev + 1) 6
  | .fixed v => v

/-- Modelled from the spec: `update_status` consumes a per-subtask result
vector, advancing every slot by `advanceSlot`. -/
def updateStatus (s : List Nat) (results : List ExecutionStatus) : List Nat :=
  List.zipWith advanceSlot s results

/-- Modelled from the spec: `reset_failed` sets every slot whose value is
an attempt counter (1..=6) back to 0 and reports whether anything
changed. -/
def resetFailed (s : List Nat) : List Nat × Bool :=
  (s.map (fun v => if 1 ≤ v ∧ v ≤ 6 then 0 else v), s.any (fun v => decide (1 ≤ v ∧ v ≤ 6)))

/-- Modelled from the spec: `force_reset_failed` additionally resets
terminal slots coming from the ignored/fixed classes.  The 3-bit encoding
cannot distinguish which 7 came from such a class, so every non-zero slot
is treated as force-reset-eligible. -/
def forceResetFailed (s : List Nat) : List Nat × Bool :=
  (s.map (fun v => if 1 ≤ v ∧ v ≤ 7 then 0 else v), s.any (fun v => decide (1 ≤ v ∧ v ≤ 7)))

/-- Modelled from the spec (§4.1): *succeeded* — all five slots equal 7. -/
def succeededPred (w : Nat) : Bool := (decodeStatus w).all (fun v => v == 7)

/-- Modelled from the spec (§4.1): *failed* — at least one slot holds an
attempt counter in 1..=6. -/
def failedPred (w : Nat) : Bool := (decodeStatus w).any (fun v => decide (1 ≤ v ∧ v ≤ 6))

/-- Modelled from the spec (§4.1): *waiting* — all five slots equal 0. -/
def waitingPred (w : Nat) : Bool := (decodeStatus w).all (fun v => v == 0)

theorem decodeStatus_length (w : Nat) : (decodeStatus w).length = 5 := rfl

theorem decodeStatus_lt_8 (w : Nat) : ∀ v ∈ decodeStatus w, v < 8 := by
  intro v hv
  simp only [decodeStatus, List.mem_cons, List.not_mem_nil, or_false] at hv
  rcases hv with h | h | h | h | h <;> subst h <;> omega

theorem decode_encode (s : List Nat) (hlen : s.length = 5) (hlt : ∀ v ∈ s, v < 8) :
    decodeStatus (encodeStatus s) = s := by
  match s, hlen with
  | [a, b, c, d, e], _ =>
    simp only [List.mem_cons, List.not_mem_nil, or_false, forall_eq_or_imp, forall_eq] at hlt
    obtain ⟨ha, hb, hc, hd, he⟩ := hlt
    simp only [decodeStatus, encodeStatus, List.getD_cons_zero, List.getD_cons_succ,
      List.cons.injEq, and_true]
    refine ⟨?_, ?_, ?_, ?_, ?_⟩ <;> omega

/-! ## Download cycle over enabled video sources (`task/video_downloader.rs`)

`download_video` iterates the enabled sources in order.  A risk-control
error aborts the whole cycle, counting the failing source and everything
after it as "待扫描" (pending); any other error only emits an error
notification and the loop continues. -/

/-- The four source kinds of `VideoSourceEnum`. -/
inductive SourceKind where
  | collection
  | favorite
  | submission
  | watchLater
deriving DecidableEq, Repr

/-- Outcome of `process_video_source` for one source.  The processing
itself is external I/O; only the classification of its result matters to
the loop: success, a risk-control-related `BiliError`, or any other
error. -/
inductive ScanOutcome where
  | ok
  | riskControl
  | otherError
deriving DecidableEq, Repr

/-- Per-kind counters, as kept by the four `total_* / succeeded_* /
risk_control_*` variables of `download_video`. -/
structure KindCounts where
  collections : Nat
  favorites : Nat
  submissions : Nat
  watchLater : Nat
deriving DecidableEq, Repr

def KindCounts.zero : KindCounts := ⟨0, 0, 0, 0⟩

/-- Bump the counter of one kind (the `match source_type` arms). -/
def KindCounts.bump (c : KindCounts) : SourceKind → KindCounts
  | .collection => { c with collections := c.collections + 1 }
  | .favorite => { c with favorites := c.favorites + 1 }
  | .submission => { c with submissions := c.submissions + 1 }
  | .watchLater => { c with watchLater := c.watchLater + 1 }

def KindCounts.get (c : KindCounts) : SourceKind → Nat
  | .collection => c.collections
  | .favorite => c.favorites
  | .submission => c.submissions
  | .watchLater => c.watchLater

def KindCounts.total (c : KindCounts) : Nat :=
  c.collections + c.favorites + c.submissions + c.watchLater

/-- Count the kinds of a source list (the loop
`for remaining_type in remaining_sources.iter().skip(index)`). -/
def kindCountsOf : List SourceKind → KindCounts
  | [] => KindCounts.zero
  | k :: rest => (kindCountsOf rest).bump k

/-- Result of the `for (index, video_source) in ...` loop of
`download_video`: per-kind success counts, per-kind "待扫描" counts,
whether risk control aborted the cycle, how many sources were processed,
and how many error notifications were emitted for non-risk errors. -/
structure ScanLoopResult where
  succeeded : KindCounts
  riskControl : KindCounts
  riskControlTriggered : Bool
  processed : Nat
  errorNotifications : Nat
deriving DecidableEq, Repr

/-- The source-processing loop of `download_video`
(`video_downloader.rs:457-502`), processing sources left to right:
* risk-control error → record kinds of the failing source and every
  source after it as pending, `break`;
* other error → `error_and_notify`, continue with the next source;
* success → bump the per-kind success counter. -/
def scanLoop : List (SourceKind × ScanOutcome) → ScanLoopResult
  | [] =>
    { succeeded := KindCounts.zero, riskControl := KindCounts.zero,
      riskControlTriggered := false, processed := 0, errorNotifications := 0 }
  | (k, o) :: rest =>
    match o with
    | .riskControl =>
      { succeeded := KindCounts.zero, riskControl := kindCountsOf (k :: rest.map Prod.fst),
        riskControlTriggered := true, processed := 1, errorNotifications := 0 }
    | .otherError =>
      let r := scanLoop rest
      { r with processed := r.processed + 1, errorNotifications := r.errorNotifications + 1 }
    | .ok =>
      let r := scanLoop rest
      { r with processed := r.processed + 1, succeeded := r.succeeded.bump k }

theorem kindCountsOf_get (l : List SourceKind) (k : SourceKind) :
    (kindCountsOf l).get k = l.countP (fun x => x == k) := by
  induction l with
  | nil => cases k <;> rfl
  | cons hd tl ih =>
    rw [List.countP_cons]
    cases hd <;> cases k <;>
      simp_all [kindCountsOf, KindCounts.bump, KindCounts.get]

theorem kindCountsOf_total (l : List SourceKind) :
    (kindCountsOf l).total = l.length := by
  induction l with
  | nil => rfl
  | cons hd tl ih =>
    cases hd <;> simp_all [kindCountsOf, KindCounts.bump, KindCounts.total] <;> omega

/-- If no source errors with risk control, the loop visits every source
and never aborts. -/
theorem scanLoop_no_risk (sources : List (SourceKind × ScanOutcome))
    (h : ∀ s ∈ sources, s.2 ≠ ScanOutcome.riskControl) :
    (scanLoop sources).processed = sources.length ∧
    (scanLoop sources).riskControlTriggered = false ∧
    (scanLoop sources).riskControl = KindCounts.zero ∧
    (scanLoop sources).errorNotifications
      = sources.countP (fun s => s.2 == ScanOutcome.otherError) := by
  induction sources with
  | nil => exact ⟨rfl, rfl, rfl, rfl⟩
  | cons hd tl ih =>
    obtain ⟨k, o⟩ := hd
    have hho := h (k, o) (List.mem_cons_self _ _)
    have ih' := ih (fun s hs => h s (List.mem_cons_of_mem _ hs))
    rw [List.countP_cons]
    cases o with
    | riskControl => exact absurd rfl hho
    | otherError => simpa [scanLoop] using And.intro ih'.1 ⟨ih'.2.1, ih'.2.2.1, ih'.2.2.2⟩
    | ok => simpa [scanLoop] using And.intro ih'.1 ⟨ih'.2.1, ih'.2.2.1, ih'.2.2.2⟩

/-- C1: During one download cycle over the list of enabled video sources,
if processing the source at 0-based index `j` (1-based position `j + 1`)
returns a risk-control-related error and no earlier source did, then no
source after it is processed, the per-kind "待扫描" (pending) counts cover
exactly the failing source and every source after it — in total
`n - (j + 1) + 1 = n - j` — while every non-risk-control error among the
earlier sources only emitted an error notification and the loop
continued. -/
theorem download_cycle_risk_control_abort
    (sources : List (SourceKind × ScanOutcome)) (j : Nat) (hj : j < sources.length)
    (hrisk : (sources.get ⟨j, hj⟩).2 = ScanOutcome.riskControl)
    (hfirst : ∀ m (hm : m < j),
      (sources.get ⟨m, Nat.lt_trans hm hj⟩).2 ≠ ScanOutcome.riskControl) :
    (scanLoop sources).processed = j + 1 ∧
    (scanLoop sources).riskControlTriggered = true ∧
    (∀ k, (scanLoop sources).riskControl.get k
        = (sources.drop j).countP (fun s => s.1 == k)) ∧
    (scanLoop sources).riskControl.total = sources.length - j ∧
    (scanLoop sources).errorNotifications
        = (sources.take j).countP (fun s => s.2 == ScanOutcome.otherError) := by
  induction sources generalizing j with
  | nil => exact absurd hj (by simp)
  | cons hd tl ih =>
    obtain ⟨k, o⟩ := hd
    cases j with
    | zero =>
      have ho : o = ScanOutcome.riskControl := hrisk
      subst ho
      refine ⟨rfl, rfl, ?_, ?_, rfl⟩
      · intro k'
        simp only [scanLoop, List.drop_zero]
        rw [kindCountsOf_get]
        have : (k, ScanOutcome.riskControl) :: tl
            = ((k, ScanOutcome.riskControl) :: tl) := rfl
        rw [show (k :: tl.map Prod.fst)
              = ((k, ScanOutcome.riskControl) :: tl).map Prod.fst from rfl,
            List.countP_map]
        rfl
      · simp only [scanLoop, List.drop_zero]
        rw [kindCountsOf_total]
        simp
    | succ j' =>
      have h0 : o ≠ ScanOutcome.riskControl := by
        have := hfirst 0 (Nat.succ_pos j')
        simpa using this
      have hj' : j' < tl.length := by simpa using hj
      have hrisk' : (tl.get ⟨j', hj'⟩).2 = ScanOutcome.riskControl := by
        simpa using hrisk
      have hfirst' : ∀ m (hm : m < j'),
          (tl.get ⟨m, Nat.lt_trans hm hj'⟩).2 ≠ ScanOutcome.riskControl := by
        intro m hm
        have := hfirst (m + 1) (by omega)
        simpa using this
      obtain ⟨ih1, ih2, ih3, ih4, ih5⟩ := ih j' hj' hrisk' hfirst'
      cases o with
      | riskControl => exact absurd rfl h0
      | otherError =>
        refine ⟨by simpa [scanLoop] using ih1, by simpa [scanLoop] using ih2, ?_, ?_, ?_⟩
        · intro k'
          simpa [scanLoop, List.drop_succ_cons] using ih3 k'
        · simpa [scanLoop, List.drop_succ_cons] using ih4
        · simp only [scanLoop, List.take_succ_cons, List.countP_cons]
          simpa using ih5
      | ok =>
        refine ⟨by simpa [scanLoop] using ih1, by simpa [scanLoop] using ih2, ?_, ?_, ?_⟩
        · intro k'
          simpa [scanLoop, List.drop_succ_cons] using ih3 k'
        · simpa [scanLoop, List.drop_succ_cons] using ih4
        · simp only [scanLoop, List.take_succ_cons, List.countP_cons]
          simpa using ih5

/-- Witness for C1 at a concrete input: three sources, the second
(a favorite) hits risk control; exactly sources 1 and 2 are processed and
the pending counts cover the last two sources (`3 - 2 + 1 = 2`). -/
theorem download_cycle_risk_control_abort_witness :
    (scanLoop [(SourceKind.collection, ScanOutcome.ok),
               (SourceKind.favorite, ScanOutcome.riskControl),
               (SourceKind.submission, ScanOutcome.ok)]).processed = 2 ∧
    (scanLoop [(SourceKind.collection, ScanOutcome.ok),
               (SourceKind.favorite, ScanOutcome.riskControl),
               (SourceKind.submission, ScanOutcome.ok)]).riskControl.total = 2 := by
  have h := download_cycle_risk_control_abort
    [(SourceKind.collection, ScanOutcome.ok),
     (SourceKind.favorite, ScanOutcome.riskControl),
     (SourceKind.submission, ScanOutcome.ok)] 1 (by decide) (by decide)
    (by decide)
  exact ⟨h.1, by rw [h.2.2.2.1]; rfl⟩

/-! ## Notification channels and per-channel deduplication (`notifier/mod.rs`)

`Notifier::notify_internal` deduplicates per channel through the global
`LAST_MESSAGES` map before performing the outbound HTTP send.  The map is
modelled as an association list where the most recent insertion wins
(`List.lookup` returns the first hit); the HTTP result is an explicit
`sendOk` parameter. -/

/-- The notification channel enum `Notifier`.  `ignoreCache` is the
internal webhook helper field that forces re-rendering the template
during tests; it does not participate in deduplication. -/
inductive Notifier where
  | telegram (botToken chatId : String)
  | webhook (url : String) (template : Option String) (ignoreCache : Option Unit)
deriving DecidableEq, Repr

/-- `notifier_cache_key`: `telegram:{bot_token}:{chat_id}` for Telegram,
`webhook:{url}` for webhooks (braces shown only to describe the Rust
format string). -/
def notifierCacheKey : Notifier → String
  | .telegram botToken chatId => "telegram:" ++ botToken ++ ":" ++ chatId
  | .webhook url _ _ => "webhook:" ++ url

/-- `normalize_message_for_cache`: the raw business message, trimmed of
surrounding whitespace; appended timestamps are not part of the cached
content. -/
def normalizeMessageForCache (_n : Notifier) (message : String) : String :=
  message.trim

/-- The `LAST_MESSAGES` cache: latest insertion first. -/
abbrev MessageCache := List (String × String)

/-- Outcome of one `notify_internal` call: the cache afterwards, whether
the outbound HTTP send was attempted (i.e. the dispatch `match` was
reached), and whether the call returned `Ok`. -/
structure NotifyResult where
  cache : MessageCache
  sendAttempted : Bool
  ok : Bool
deriving DecidableEq, Repr

/-- `Notifier::notify_internal` (`notifier/mod.rs:111-205`).  Unless
`bypassCache` is set: compute the channel key and the trimmed message;
if the cached value equals it, skip and return `Ok`; otherwise insert
into the cache *first* and only then attempt the HTTP send, whose result
is the external parameter `sendOk`. -/
def notifyInternal (cache : MessageCache) (n : Notifier) (message : String)
    (bypassCache : Bool) (sendOk : Bool) : NotifyResult :=
  if !bypassCache then
    let key := notifierCacheKey n
    let normalized := normalizeMessageForCache n message
    match cache.lookup key with
    | some last =>
      if last = normalized then
        { cache := cache, sendAttempted := false, ok := true }
      else
        { cache := (key, normalized) :: cache, sendAttempted := true, ok := sendOk }
    | none =>
      { cache := (key, normalized) :: cache, sendAttempted := true, ok := sendOk }
  else
    { cache := cache, sendAttempted := true, ok := sendOk }

/-- `Notifier::notify`: the ordinary entry point, with deduplication. -/
def notify (cache : MessageCache) (n : Notifier) (message : String) (sendOk : Bool) :
    NotifyResult :=
  notifyInternal cache n message false sendOk

/-- `Notifier::notify_without_cache`: documented in the source as the
test-notification entry point; it bypasses the deduplication cache.  It
has no caller in the repository. -/
def notifyWithoutCache (cache : MessageCache) (n : Notifier) (message : String)
    (sendOk : Bool) : NotifyResult :=
  notifyInternal cache n message true sendOk

/-- The fixed body sent by the notifier ping endpoint
(`api/routes/config/mod.rs:48`). -/
def testNotificationMessage : String :=
  "✅ 测试通知\n\n这是一条来自 BiliSync 的测试通知，如果您收到此消息，说明通知配置正常。"

/-- The mutation `ping_notifiers` performs before sending: set the
webhook-only `ignore_cache` tag (it forces template re-rendering, not
cache bypass). -/
def setIgnoreCache : Notifier → Notifier
  | .webhook url template _ => .webhook url template (some ())
  | n => n

/-- `ping_notifiers` (`api/routes/config/mod.rs:44-85`): set the webhook
`ignore_cache` tag, then send the fixed test message through
`Notifier::notify` — which runs the deduplication path. -/
def pingNotifiers (cache : MessageCache) (n : Notifier) (sendOk : Bool) : NotifyResult :=
  notify cache (setIgnoreCache n) testNotificationMessage sendOk

theorem lookup_insert_self (k v : String) (c : MessageCache) :
    ((k, v) :: c).lookup k = some v := by
  simp [List.lookup]

theorem notifyInternal_fresh (cache : MessageCache) (n : Notifier) (m : String) (ok : Bool)
    (hfresh : cache.lookup (notifierCacheKey n) ≠ some m.trim) :
    notifyInternal cache n m false ok
      = ⟨(notifierCacheKey n, m.trim) :: cache, true, ok⟩ := by
  cases hcl : cache.lookup (notifierCacheKey n) with
  | none => simp [notifyInternal, normalizeMessageForCache, hcl]
  | some last =>
    have hne : last ≠ m.trim := fun h => hfresh (by rw [hcl, h])
    simp [notifyInternal, normalizeMessageForCache, hcl, hne]

theorem notifyInternal_dup (cache : MessageCache) (n : Notifier) (m : String) (ok : Bool)
    (hdup : cache.lookup (notifierCacheKey n) = some m.trim) :
    notifyInternal cache n m false ok = ⟨cache, false, true⟩ := by
  simp [notifyInternal, normalizeMessageForCache, hdup]

/-- C3: on any channel, a non-bypass notification whose trimmed body is
absent from (or differs from) the channel's cache entry stores the
trimmed body and attempts the send; an immediately following non-bypass
notification with the same trimmed body is skipped as a duplicate — so
the pair causes exactly one outbound send on that channel. -/
theorem notify_dedup_exactly_one_send
    (cache : MessageCache) (n : Notifier) (m1 m2 : String) (ok1 ok2 : Bool)
    (hfresh : cache.lookup (notifierCacheKey n) ≠ some m1.trim)
    (heq : m1.trim = m2.trim) :
    (notifyInternal cache n m1 false ok1).sendAttempted = true ∧
    (notifyInternal cache n m1 false ok1).cache.lookup (notifierCacheKey n)
      = some (normalizeMessageForCache n m1) ∧
    (notifyInternal (notifyInternal cache n m1 false ok1).cache n m2 false ok2).sendAttempted
      = false ∧
    (notifyInternal (notifyInternal cache n m1 false ok1).cache n m2 false ok2).ok = true := by
  rw [notifyInternal_fresh cache n m1 ok1 hfresh]
  have hlook : ((notifierCacheKey n, m1.trim) :: cache).lookup (notifierCacheKey n)
      = some m2.trim := by
    rw [lookup_insert_self, heq]
  rw [notifyInternal_dup _ n m2 ok2 hlook]
  exact ⟨rfl, by rw [lookup_insert_self]; rfl, rfl, rfl⟩

/-- Witness for C3: a concrete Telegram channel, empty cache, the same
body sent twice. -/
theorem notify_dedup_exactly_one_send_witness :
    (notifyInternal [] (Notifier.telegram "t" "c") "hello" false true).sendAttempted = true ∧
    (notifyInternal [] (Notifier.telegram "t" "c") "hello" false true).cache.lookup
        (notifierCacheKey (Notifier.telegram "t" "c"))
      = some (normalizeMessageForCache (Notifier.telegram "t" "c") "hello") ∧
    (notifyInternal (notifyInternal [] (Notifier.telegram "t" "c") "hello" false true).cache
        (Notifier.telegram "t" "c") "hello" false true).sendAttempted = false ∧
    (notifyInternal (notifyInternal [] (Notifier.telegram "t" "c") "hello" false true).cache
        (Notifier.telegram "t" "c") "hello" false true).ok = true :=
  notify_dedup_exactly_one_send [] (Notifier.telegram "t" "c") "hello" "hello" true true
    (by simp) rfl

/-- C10: for a non-bypass notification, the trimmed message is inserted
into the per-channel cache *before* the HTTP send is attempted, so when
the send fails (`sendOk = false`) the cache already holds the new
message, and a subsequent identical notification on that channel is
skipped as a duplicate (returning `Ok`) instead of being retried. -/
theorem notify_cache_updated_even_on_send_failure
    (cache : MessageCache) (n : Notifier) (m : String) (ok2 : Bool)
    (hfresh : cache.lookup (notifierCacheKey n) ≠ some m.trim) :
    (notifyInternal cache n m false false).sendAttempted = true ∧
    (notifyInternal cache n m false false).ok = false ∧
    (notifyInternal cache n m false false).cache.lookup (notifierCacheKey n)
      = some m.trim ∧
    (notifyInternal (notifyInternal cache n m false false).cache n m false ok2).sendAttempted
      = false ∧
    (notifyInternal (notifyInternal cache n m false false).cache n m false ok2).ok = true := by
  rw [notifyInternal_fresh cache n m false hfresh]
  rw [notifyInternal_dup _ n m ok2 (lookup_insert_self _ _ _)]
  exact ⟨rfl, rfl, lookup_insert_self _ _ _, rfl, rfl⟩

/-- Witness for C10: concrete webhook channel, empty cache, failing
send. -/
theorem notify_cache_updated_even_on_send_failure_witness :
    (notifyInternal [] (Notifier.webhook "u" none none) "msg" false false).sendAttempted
      = true ∧
    (notifyInternal [] (Notifier.webhook "u" none none) "msg" false false).ok = false ∧
    (notifyInternal [] (Notifier.webhook "u" none none) "msg" false false).cache.lookup
        (notifierCacheKey (Notifier.webhook "u" none none)) = some ("msg".trim) ∧
    (notifyInternal (notifyInternal [] (Notifier.webhook "u" none none) "msg" false false).cache
        (Notifier.webhook "u" none none) "msg" false true).sendAttempted = false ∧
    (notifyInternal (notifyInternal [] (Notifier.webhook "u" none none) "msg" false false).cache
        (Notifier.webhook "u" none none) "msg" false true).ok = true :=
  notify_cache_updated_even_on_send_failure [] (Notifier.webhook "u" none none) "msg" true
    (by simp)

/-- C4 (refutation): the ping endpoint does **not** bypass the
deduplication cache.  It reaches the channel through `Notifier::notify`
(`bypass_cache = false`), so pinging the same Telegram channel twice with
the fixed test message performs the outbound send only the first time:
the second ping is skipped by the `LAST_MESSAGES` cache hit.  (The
source's own `notify_without_cache`, documented as the test-notification
entry point, is never called.) -/
theorem ping_notifiers_second_ping_skipped :
    (pingNotifiers [] (Notifier.telegram "t" "c") true).sendAttempted = true ∧
    (pingNotifiers (pingNotifiers [] (Notifier.telegram "t" "c") true).cache
        (Notifier.telegram "t" "c") true).sendAttempted = false ∧
    (pingNotifiers (pingNotifiers [] (Notifier.telegram "t" "c") true).cache
        (Notifier.telegram "t" "c") true).ok = true := by
  have h1 : pingNotifiers [] (Notifier.telegram "t" "c") true
      = ⟨[(notifierCacheKey (Notifier.telegram "t" "c"), testNotificationMessage.trim)],
         true, true⟩ := by
    show notifyInternal [] (Notifier.telegram "t" "c") testNotificationMessage false true = _
    rw [notifyInternal_fresh _ _ _ _ (by simp)]
  refine ⟨by rw [h1], ?_, ?_⟩
  · rw [h1]
    exact congrArg NotifyResult.sendAttempted
      (notifyInternal_dup _ _ _ _ (lookup_insert_self _ _ _))
  · rw [h1]
    exact congrArg NotifyResult.ok
      (notifyInternal_dup _ _ _ _ (lookup_insert_self _ _ _))

/-! ## Notification queue quiet hours (`notifier/queue.rs`)

The queue worker checks, for every popped message, whether the current
local hour falls in the configured quiet window; if so it re-enqueues the
message with a delay targeting the next `end:00` local time and moves on
to the next message.  Local wall-clock time is modelled at second
granularity (`chrono::Local::now()` is external). -/

/-- A local wall-clock instant: day index plus hour/minute/second. -/
structure LocalTime where
  day : Nat
  hour : Nat
  minute : Nat
  second : Nat
deriving DecidableEq, Repr

/-- Seconds since the epoch of day 0 (for `signed_duration_since`). -/
def LocalTime.toSeconds (t : LocalTime) : Nat :=
  t.day * 86400 + t.hour * 3600 + t.minute * 60 + t.second

/-- The `is_quiet_time` computation (`queue.rs:47-53`): wraparound when
`start > end`, plain half-open interval otherwise. -/
def isQuietTime (startHour endHour hour : Nat) : Bool :=
  if startHour > endHour then hour ≥ startHour || hour < endHour
  else hour ≥ startHour && hour < endHour

/-- The `target_time` computation (`queue.rs:57-83`): tomorrow's `end:00`
when the window wraps and the hour is past `start`, today's `end:00`
otherwise. -/
def quietTargetTime (now : LocalTime) (startHour endHour : Nat) : LocalTime :=
  if startHour > endHour then
    if now.hour ≥ startHour then ⟨now.day + 1, endHour, 0, 0⟩
    else ⟨now.day, endHour, 0, 0⟩
  else ⟨now.day, endHour, 0, 0⟩

/-- What the worker does with one popped message. -/
inductive QueueAction where
  | send (msg : String)
  | requeue (msg : String) (delaySeconds : Int)
deriving DecidableEq, Repr

/-- One iteration of the queue worker for a popped message
(`queue.rs:35-116`): inside an enabled quiet window with a positive delay
to the window's end, schedule a delayed re-enqueue of the same message
and continue; otherwise send now. -/
def queueWorkerStep (enabled : Bool) (startHour endHour : Nat) (now : LocalTime)
    (msg : String) : QueueAction :=
  if enabled && isQuietTime startHour endHour now.hour then
    let target := quietTargetTime now startHour endHour
    let delay : Int := (target.toSeconds : Int) - (now.toSeconds : Int)
    if delay > 0 then .requeue msg delay else .send msg
  else .send msg

theorem quietTarget_gt (startHour endHour : Nat) (now : LocalTime)
    (h24 : now.hour < 24) (hm : now.minute < 60) (hs : now.second < 60)
    (hq : isQuietTime startHour endHour now.hour = true) :
    now.toSeconds < (quietTargetTime now startHour endHour).toSeconds := by
  simp only [isQuietTime] at hq
  by_cases hse : startHour > endHour
  · rw [if_pos hse, Bool.or_eq_true, decide_eq_true_eq, decide_eq_true_eq] at hq
    by_cases hh : now.hour ≥ startHour
    · simp only [quietTargetTime, if_pos hse, if_pos hh, LocalTime.toSeconds]
      omega
    · have hlt : now.hour < endHour := by
        rcases hq with a | a
        · exact absurd a hh
        · exact a
      simp only [quietTargetTime, if_pos hse, if_neg hh, LocalTime.toSeconds]
      omega
  · rw [if_neg hse, Bool.and_eq_true, decide_eq_true_eq, decide_eq_true_eq] at hq
    simp only [quietTargetTime, if_neg hse, LocalTime.toSeconds]
    omega

theorem quietTarget_least (startHour endHour : Nat) (now t : LocalTime)
    (h24 : now.hour < 24) (hend : endHour ≤ 23)
    (hq : isQuietTime startHour endHour now.hour = true)
    (ht : t.hour = endHour) (htm : t.minute = 0) (hts : t.second = 0)
    (hgt : now.toSeconds < t.toSeconds) :
    (quietTargetTime now startHour endHour).toSeconds ≤ t.toSeconds := by
  simp only [isQuietTime] at hq
  simp only [LocalTime.toSeconds, ht, htm, hts] at hgt ⊢
  by_cases hse : startHour > endHour
  · rw [if_pos hse, Bool.or_eq_true, decide_eq_true_eq, decide_eq_true_eq] at hq
    by_cases hh : now.hour ≥ startHour
    · simp only [quietTargetTime, if_pos hse, if_pos hh]
      omega
    · simp only [quietTargetTime, if_pos hse, if_neg hh]
      omega
  · rw [if_neg hse, Bool.and_eq_true, decide_eq_true_eq, decide_eq_true_eq] at hq
    simp only [quietTargetTime, if_neg hse]
    omega

/-- C5: for every popped message, with quiet hours enabled the current
local hour is quiet iff it lies in `[start, end)` when `start ≤ end` and
iff `hour ≥ start ∨ hour < end` when `start > end` (so with `start = 22`,
`end = 9`, hour 23 is quiet and hour 9 is not); a quiet message is not
sent but re-enqueued with the delay to the next `end:00` local time
(which is exactly `quietTargetTime`: the least instant of the form
`end:00:00` after `now`), and a non-quiet hour sends immediately. -/
theorem queue_quiet_hours_step (startHour endHour : Nat) (now : LocalTime) (msg : String)
    (h24 : now.hour < 24) (hm : now.minute < 60) (hs : now.second < 60)
    (hend : endHour ≤ 23) :
    ((startHour ≤ endHour →
        (isQuietTime startHour endHour now.hour = true ↔
          startHour ≤ now.hour ∧ now.hour < endHour)) ∧
     (endHour < startHour →
        (isQuietTime startHour endHour now.hour = true ↔
          startHour ≤ now.hour ∨ now.hour < endHour))) ∧
    (isQuietTime 22 9 23 = true ∧ isQuietTime 22 9 9 = false) ∧
    (isQuietTime startHour endHour now.hour = true →
      queueWorkerStep true startHour endHour now msg
        = QueueAction.requeue msg
            (((quietTargetTime now startHour endHour).toSeconds : Int)
              - (now.toSeconds : Int)) ∧
      (quietTargetTime now startHour endHour).hour = endHour ∧
      (quietTargetTime now startHour endHour).minute = 0 ∧
      (quietTargetTime now startHour endHour).second = 0 ∧
      now.toSeconds < (quietTargetTime now startHour endHour).toSeconds ∧
      (∀ t : LocalTime, t.hour = endHour → t.minute = 0 → t.second = 0 →
        now.toSeconds < t.toSeconds →
        (quietTargetTime now startHour endHour).toSeconds ≤ t.toSeconds)) ∧
    (isQuietTime startHour endHour now.hour = false →
      queueWorkerStep true startHour endHour now msg = QueueAction.send msg) := by
  refine ⟨⟨?_, ?_⟩, ⟨by decide, by decide⟩, ?_, ?_⟩
  · intro hle
    rw [isQuietTime, if_neg (Nat.not_lt.mpr hle)]
    simp only [Bool.and_eq_true, decide_eq_true_eq]
  · intro hlt
    rw [isQuietTime, if_pos hlt]
    simp only [Bool.or_eq_true, decide_eq_true_eq]
  · intro hq
    have hgt := quietTarget_gt startHour endHour now h24 hm hs hq
    have hpos : ((quietTargetTime now startHour endHour).toSeconds : Int)
        - (now.toSeconds : Int) > 0 := by
      omega
    refine ⟨?_, ?_, ?_, ?_, hgt, ?_⟩
    · simp [queueWorkerStep, hq, hpos]
    · simp only [quietTargetTime]
      split <;> try split
      all_goals rfl
    · simp only [quietTargetTime]
      split <;> try split
      all_goals rfl
    · simp only [quietTargetTime]
      split <;> try split
      all_goals rfl
    · intro t ht htm hts htgt
      exact quietTarget_least startHour endHour now t h24 hend hq ht htm hts htgt
  · intro hq
    simp [queueWorkerStep, hq]

/-- Witness for C5: quiet window 22:00–09:00, message popped at 23:30:00
on day 0 — the hour is quiet and the message is re-enqueued with a delay
of 34200 seconds, i.e. until 09:00:00 the next day. -/
theorem queue_quiet_hours_step_witness :
    isQuietTime 22 9 23 = true ∧ isQuietTime 22 9 9 = false ∧
    queueWorkerStep true 22 9 ⟨0, 23, 30, 0⟩ "m"
      = QueueAction.requeue "m" 34200 := by
  have h := queue_quiet_hours_step 22 9 ⟨0, 23, 30, 0⟩ "m"
    (by decide) (by decide) (by decide) (by decide)
  refine ⟨h.2.1.1, h.2.1.2, ?_⟩
  have hr := (h.2.2.1 (by decide)).1
  rw [hr]
  rfl

/-! ## Persisted rows and the clear-and-reset endpoint
(`api/routes/videos/mod.rs`) -/

/-- The columns of the `video` entity used by the verified endpoints. -/
structure VideoRow where
  id : Nat
  downloadStatus : Nat
  singlePage : Option Bool
  path : String
  valid : Bool
  shouldDownload : Bool
  isPaidVideo : Bool
deriving DecidableEq, Repr

/-- The columns of the `page` entity used by the verified endpoints. -/
structure PageRow where
  id : Nat
  videoId : Nat
  downloadStatus : Nat
  pid : Nat
  path : Option String
deriving DecidableEq, Repr

/-- The two tables the endpoints touch. -/
structure Database where
  videos : List VideoRow
  pages : List PageRow
deriving DecidableEq, Repr

/-- Response payload of `clear_and_reset_video_status`: the database
after the single transaction committed, the directory-removal target
(`video.path`), the optional warning, and the updated video row. -/
structure ClearAndResetResult where
  db : Database
  removedDirPath : String
  warning : Option String
  video : VideoRow
deriving DecidableEq, Repr

/-- The body of `clear_and_reset_video_status` after the video was found
(`videos/mod.rs:215-242`): one transaction sets `single_page = null` and
`download_status = 0` and deletes every page of the video; after the
commit, `remove_dir_all(video.path)` is attempted — a failure only sets
the warning string (`removeDirOk` stands for the filesystem call). -/
def clearAndResetCore (db : Database) (id : Nat) (v : VideoRow) (removeDirOk : Bool) :
    ClearAndResetResult :=
  let v' : VideoRow := { v with singlePage := none, downloadStatus := 0 }
  let db' : Database :=
    { videos := db.videos.map (fun w => if w.id == id then v' else w),
      pages := db.pages.filter (fun p => !(p.videoId == id)) }
  { db := db', removedDirPath := v'.path,
    warning := if removeDirOk then none else some ("删除本地路径「" ++ v'.path ++ "」失败"),
    video := v' }

/-- `clear_and_reset_video_status` (`videos/mod.rs:207-243`): 404 when the
video id is unknown, otherwise the core transaction plus directory
removal. -/
def clearAndResetVideoStatus (db : Database) (id : Nat) (removeDirOk : Bool) :
    Except Nat ClearAndResetResult :=
  match db.videos.find? (fun w => w.id == id) with
  | none => .error id
  | some v => .ok (clearAndResetCore db id v removeDirOk)

/-- C6: for every existing video id, clear-and-reset succeeds and leaves
the video row with `download_status = 0` and `single_page = null`,
deletes exactly the pages of that video (in the one committed
transaction of `clearAndResetCore`, leaving other rows untouched), and
attempts to remove the directory at `video.path`; when removal fails the
endpoint still returns success, with only the warning string set. -/
theorem clear_and_reset_spec (db : Database) (id : Nat) (removeDirOk : Bool)
    (v : VideoRow) (hfind : db.videos.find? (fun w => w.id == id) = some v) :
    clearAndResetVideoStatus db id removeDirOk
      = .ok (clearAndResetCore db id v removeDirOk) ∧
    (clearAndResetCore db id v removeDirOk).video.downloadStatus = 0 ∧
    (clearAndResetCore db id v removeDirOk).video.singlePage = none ∧
    (∀ p ∈ (clearAndResetCore db id v removeDirOk).db.pages, p.videoId ≠ id) ∧
    (∀ p ∈ db.pages, p.videoId ≠ id →
      p ∈ (clearAndResetCore db id v removeDirOk).db.pages) ∧
    (∀ w ∈ (clearAndResetCore db id v removeDirOk).db.videos,
      w.id = id → w.downloadStatus = 0 ∧ w.singlePage = none) ∧
    (∀ w ∈ db.videos, w.id ≠ id → w ∈ (clearAndResetCore db id v removeDirOk).db.videos) ∧
    (clearAndResetCore db id v removeDirOk).removedDirPath = v.path ∧
    (removeDirOk = true → (clearAndResetCore db id v removeDirOk).warning = none) ∧
    (removeDirOk = false → (clearAndResetCore db id v removeDirOk).warning.isSome = true) := by
  refine ⟨?_, rfl, rfl, ?_, ?_, ?_, ?_, rfl, ?_, ?_⟩
  · simp [clearAndResetVideoStatus, hfind]
  · intro p hp
    have := (List.mem_filter.mp hp).2
    simpa using this
  · intro p hp hne
    exact List.mem_filter.mpr ⟨hp, by simpa using hne⟩
  · intro w hw hid
    obtain ⟨w₀, hw₀, heq⟩ := List.mem_map.mp hw
    by_cases h : w₀.id = id
    · rw [if_pos (by simpa using h)] at heq
      rw [← heq]
      exact ⟨rfl, rfl⟩
    · rw [if_neg (by simpa using h)] at heq
      rw [← heq] at hid
      exact absurd hid h
  · intro w hw hne
    exact List.mem_map.mpr ⟨w, hw, by rw [if_neg (by simpa using hne)]⟩
  · intro h
    subst h
    rfl
  · intro h
    subst h
    rfl

/-- Witness for C6: a two-video, three-page database; clearing video 1
with a failing directory removal. -/
theorem clear_and_reset_spec_witness :
    (clearAndResetVideoStatus
        ⟨[⟨1, 1234, some true, "d1", true, true, false⟩,
          ⟨2, 7, some false, "d2", true, true, false⟩],
         [⟨10, 1, 5, 1, none⟩, ⟨11, 1, 7, 2, none⟩, ⟨12, 2, 7, 1, none⟩]⟩ 1 false)
      = .ok (clearAndResetCore
        ⟨[⟨1, 1234, some true, "d1", true, true, false⟩,
          ⟨2, 7, some false, "d2", true, true, false⟩],
         [⟨10, 1, 5, 1, none⟩, ⟨11, 1, 7, 2, none⟩, ⟨12, 2, 7, 1, none⟩]⟩ 1
        ⟨1, 1234, some true, "d1", true, true, false⟩ false) ∧
    (clearAndResetCore
        ⟨[⟨1, 1234, some true, "d1", true, true, false⟩,
          ⟨2, 7, some false, "d2", true, true, false⟩],
         [⟨10, 1, 5, 1, none⟩, ⟨11, 1, 7, 2, none⟩, ⟨12, 2, 7, 1, none⟩]⟩ 1
        ⟨1, 1234, some true, "d1", true, true, false⟩ false).video.downloadStatus = 0 ∧
    (clearAndResetCore
        ⟨[⟨1, 1234, some true, "d1", true, true, false⟩,
          ⟨2, 7, some false, "d2", true, true, false⟩],
         [⟨10, 1, 5, 1, none⟩, ⟨11, 1, 7, 2, none⟩, ⟨12, 2, 7, 1, none⟩]⟩ 1
        ⟨1, 1234, some true, "d1", true, true, false⟩ false).video.singlePage = none ∧
    (clearAndResetCore
        ⟨[⟨1, 1234, some true, "d1", true, true, false⟩,
          ⟨2, 7, some false, "d2", true, true, false⟩],
         [⟨10, 1, 5, 1, none⟩, ⟨11, 1, 7, 2, none⟩, ⟨12, 2, 7, 1, none⟩]⟩ 1
        ⟨1, 1234, some true, "d1", true, true, false⟩ false).warning.isSome = true := by
  have h := clear_and_reset_spec
    ⟨[⟨1, 1234, some true, "d1", true, true, false⟩,
      ⟨2, 7, some false, "d2", true, true, false⟩],
     [⟨10, 1, 5, 1, none⟩, ⟨11, 1, 7, 2, none⟩, ⟨12, 2, 7, 1, none⟩]⟩ 1 false
    ⟨1, 1234, some true, "d1", true, true, false⟩ (by decide)
  exact ⟨h.1, h.2.1, h.2.2.1, h.2.2.2.2.2.2.2.2.2 rfl⟩

/-! ## Retry endpoints (`api/routes/videos/mod.rs`)

`retry_video_task` / `retry_page_task` re-run exactly one subtask and
fold its `ExecutionStatus` into the status word with a `Fixed(prev)`
mask on the other four slots.  The subtask execution itself is external
I/O; its classified result is the parameter `r` (the endpoints assert
`Fixed(_) => unreachable!()` for it). -/

/-- The masked result vector built by both retry endpoints
(`videos/mod.rs:705-713`, `966-975`): `Fixed(prev)` everywhere, the
retried slot overwritten with the actual result. -/
def maskedResults (s : List Nat) (taskIndex : Nat) (r : ExecutionStatus) :
    List ExecutionStatus :=
  ((List.range 5).map (fun i => ExecutionStatus.fixed (statusGet s i))).set taskIndex r

/-- Status word after a retry: decode, `update_status` with the masked
vector, re-encode. -/
def retryStatusWord (word taskIndex : Nat) (r : ExecutionStatus) : Nat :=
  encodeStatus (updateStatus (decodeStatus word)
    (maskedResults (decodeStatus word) taskIndex r))

theorem advanceSlot_lt_8 (p : Nat) (hp : p < 8) (r : ExecutionStatus)
    (hr : r.isFixed = false) : advanceSlot p r < 8 := by
  cases r with
  | fixed v => simp [ExecutionStatus.isFixed] at hr
  | skipped => simp [advanceSlot]
  | succeeded => simp [advanceSlot]
  | ignored => simp [advanceSlot]
  | failed => simp only [advanceSlot]; omega

theorem statusGet_decode_lt_8 (w i : Nat) (hi : i < 5) :
    statusGet (decodeStatus w) i < 8 := by
  unfold statusGet decodeStatus
  interval_cases i <;> simp [List.getD] <;> omega

theorem maskedUpdate_eq (L : List Nat) (hlen : L.length = 5) (ti : Nat) (hti : ti < 5)
    (r : ExecutionStatus) :
    updateStatus L (maskedResults L ti r)
      = L.set ti (advanceSlot (statusGet L ti) r) := by
  match L, hlen with
  | [a, b, c, d, e], _ =>
    interval_cases ti <;> rfl

theorem decode_retryStatusWord (word ti : Nat) (hti : ti < 5) (r : ExecutionStatus)
    (hr : r.isFixed = false) :
    decodeStatus (retryStatusWord word ti r)
      = (decodeStatus word).set ti (advanceSlot (statusGet (decodeStatus word) ti) r) := by
  rw [retryStatusWord, maskedUpdate_eq _ (decodeStatus_length word) ti hti r]
  apply decode_encode
  · rw [List.length_set]
    exact decodeStatus_length word
  · intro v hv
    rcases List.mem_or_eq_of_mem_set hv with h | h
    · exact decodeStatus_lt_8 word v h
    · rw [h]
      exact advanceSlot_lt_8 _ (statusGet_decode_lt_8 word ti hti) r hr

theorem statusGet_set_self (L : List Nat) (hlen : L.length = 5) (ti : Nat) (hti : ti < 5)
    (v : Nat) : statusGet (L.set ti v) ti = v := by
  unfold statusGet
  rw [List.getD_eq_getElem _ _ (by rw [List.length_set]; omega)]
  simp [List.getElem_set_self]

theorem statusGet_set_ne (L : List Nat) (ti j v : Nat) (hne : j ≠ ti) :
    statusGet (L.set ti v) j = statusGet L j := by
  unfold statusGet
  rcases Nat.lt_or_ge j L.length with hj | hj
  · rw [List.getD_eq_getElem _ _ (by rw [List.length_set]; omega),
        List.getD_eq_getElem _ _ hj]
    rw [List.getElem_set, if_neg (fun h => hne h.symm)]
  · rw [List.getD_eq_default _ _ (by rw [List.length_set]; omega),
        List.getD_eq_default _ _ hj]

theorem foldl_min_le_init (l : List Nat) (init : Nat) : l.foldl min init ≤ init := by
  induction l generalizing init with
  | nil => exact Nat.le_refl _
  | cons a tl ih =>
    exact Nat.le_trans (ih (min init a)) (Nat.min_le_left _ _)

theorem foldl_min_le_mem (l : List Nat) (init : Nat) :
    ∀ x ∈ l, l.foldl min init ≤ x := by
  induction l generalizing init with
  | nil => intro x hx; cases hx
  | cons a tl ih =>
    intro x hx
    rcases List.mem_cons.mp hx with h | h
    · subst h
      exact Nat.le_trans (foldl_min_le_init tl (min init x)) (Nat.min_le_right _ _)
    · exact ih (min init a) x h

theorem foldl_min_eq_init_or_mem (l : List Nat) (init : Nat) :
    l.foldl min init = init ∨ l.foldl min init ∈ l := by
  induction l generalizing init with
  | nil => exact Or.inl rfl
  | cons a tl ih =>
    rw [List.foldl_cons]
    rcases ih (min init a) with h | h
    · rcases Nat.le_total init a with hle | hle
      · exact Or.inl (h.trans (Nat.min_eq_left hle))
      · refine Or.inr ?_
        rw [h.trans (Nat.min_eq_right hle)]
        exact List.mem_cons_self _ _
    · exact Or.inr (List.mem_cons_of_mem _ h)

/-- Success path of `retry_video_task` (`videos/mod.rs:704-724`): fold
the retried subtask's result into the video word with the `Fixed` mask
and save, persisting the externally computed `basePath` when the stored
path was empty. -/
def retryVideoTaskOk (db : Database) (id : Nat) (v : VideoRow) (ti : Nat)
    (r : ExecutionStatus) (basePath : String) : Database :=
  let v' : VideoRow :=
    { v with downloadStatus := retryStatusWord v.downloadStatus ti r,
             path := if v.path = "" then basePath else v.path }
  { db with videos := db.videos.map (fun w => if w.id == id then v' else w) }

/-- `retry_video_task` (`videos/mod.rs:560-741`): 404 on unknown id,
400 when `single_page` is null or `task_index` is out of 0..=4;
otherwise run the one subtask (external, result `r`) and update the
word.  `basePath` stands for the externally rendered template path. -/
def retryVideoTask (db : Database) (id ti : Nat) (r : ExecutionStatus)
    (basePath : String) : Except String Database :=
  match db.videos.find? (fun w => w.id == id) with
  | none => .error "NotFound"
  | some v =>
    match v.singlePage with
    | none => .error "single_page is null"
    | some _ =>
      if ti < 5 then .ok (retryVideoTaskOk db id v ti r basePath)
      else .error "Invalid task_index"

/-- Success path of `retry_page_task` (`videos/mod.rs:930-1002`): update
the page word with the `Fixed` mask and save its path; when the retried
task is page subtask 1, re-read every page of the video and set the
video's slot 4 to the minimum of their slot 1 (starting from 7). -/
def retryPageTaskOk (db : Database) (pageId : Nat) (page : PageRow) (video : VideoRow)
    (ti : Nat) (r : ExecutionStatus) (videoPath : String) : Database :=
  let page' : PageRow :=
    { page with downloadStatus := retryStatusWord page.downloadStatus ti r,
                path := some videoPath }
  let pages' := db.pages.map (fun p => if p.id == pageId then page' else p)
  if ti == 1 then
    let minStatus := ((pages'.filter (fun p => p.videoId == page.videoId)).map
      (fun p => statusGet (decodeStatus p.downloadStatus) 1)).foldl min 7
    let video' : VideoRow :=
      { video with downloadStatus :=
          encodeStatus (statusSet (decodeStatus video.downloadStatus) 4 minStatus) }
    { videos := db.videos.map (fun w => if w.id == page.videoId then video' else w),
      pages := pages' }
  else
    { db with pages := pages' }

/-- `retry_page_task` (`videos/mod.rs:744-1019`): 404 on unknown page or
video, 400 when `single_page` is null or `task_index` is out of 0..=4;
otherwise the success path.  `videoPath` stands for the externally
computed page file path. -/
def retryPageTask (db : Database) (pageId ti : Nat) (r : ExecutionStatus)
    (videoPath : String) : Except String Database :=
  match db.pages.find? (fun p => p.id == pageId) with
  | none => .error "NotFound"
  | some page =>
    match db.videos.find? (fun w => w.id == page.videoId) with
    | none => .error "NotFound"
    | some video =>
      match video.singlePage with
      | none => .error "single_page is null"
      | some _ =>
        if ti < 5 then .ok (retryPageTaskOk db pageId page video ti r videoPath)
        else .error "Invalid task_index"

theorem retryPageTaskOk_pages (db : Database) (pageId : Nat) (page : PageRow)
    (video : VideoRow) (ti : Nat) (r : ExecutionStatus) (videoPath : String) :
    (retryPageTaskOk db pageId page video ti r videoPath).pages
      = db.pages.map (fun p => if p.id == pageId then
          { page with downloadStatus := retryStatusWord page.downloadStatus ti r,
                      path := some videoPath } else p) := by
  unfold retryPageTaskOk
  split <;> rfl

/-- C2: for every retry request (`task_index < 5`, subtask result `r`
with `Fixed` unreachable), the video and page retry endpoints succeed on
a found row with a resolved `single_page`, write `advanceSlot prev r`
into exactly the retried slot while every other slot keeps its previous
counter (the `Fixed(prev)` mask), and — when the retried task is page
subtask 1 — set the video's slot 4 to the minimum of slot 1 over all of
that video's pages as read back from the store (7 when there are none),
leaving the video's other slots unchanged. -/
theorem retry_task_fixed_mask
    (db : Database) (id pageId ti : Nat) (r : ExecutionStatus)
    (basePath videoPath : String) (hti : ti < 5) (hr : r.isFixed = false) :
    (∀ v sp, db.videos.find? (fun w => w.id == id) = some v → v.singlePage = some sp →
      retryVideoTask db id ti r basePath = .ok (retryVideoTaskOk db id v ti r basePath) ∧
      ∀ w ∈ (retryVideoTaskOk db id v ti r basePath).videos, w.id = id →
        statusGet (decodeStatus w.downloadStatus) ti
          = advanceSlot (statusGet (decodeStatus v.downloadStatus) ti) r ∧
        ∀ j, j ≠ ti →
          statusGet (decodeStatus w.downloadStatus) j
            = statusGet (decodeStatus v.downloadStatus) j) ∧
    (∀ page video sp, db.pages.find? (fun p => p.id == pageId) = some page →
      db.videos.find? (fun w => w.id == page.videoId) = some video →
      video.singlePage = some sp →
      retryPageTask db pageId ti r videoPath
        = .ok (retryPageTaskOk db pageId page video ti r videoPath) ∧
      (∀ p ∈ (retryPageTaskOk db pageId page video ti r videoPath).pages, p.id = pageId →
        statusGet (decodeStatus p.downloadStatus) ti
          = advanceSlot (statusGet (decodeStatus page.downloadStatus) ti) r ∧
        ∀ j, j ≠ ti →
          statusGet (decodeStatus p.downloadStatus) j
            = statusGet (decodeStatus page.downloadStatus) j) ∧
      (ti = 1 →
        ∀ w ∈ (retryPageTaskOk db pageId page video ti r videoPath).videos,
          w.id = page.videoId →
          (∀ j, j < 5 → j ≠ 4 →
            statusGet (decodeStatus w.downloadStatus) j
              = statusGet (decodeStatus video.downloadStatus) j) ∧
          statusGet (decodeStatus w.downloadStatus) 4 ≤ 7 ∧
          (∀ p ∈ (retryPageTaskOk db pageId page video ti r videoPath).pages,
            p.videoId = page.videoId →
            statusGet (decodeStatus w.downloadStatus) 4
              ≤ statusGet (decodeStatus p.downloadStatus) 1) ∧
          (statusGet (decodeStatus w.downloadStatus) 4 = 7 ∨
           ∃ p, p ∈ (retryPageTaskOk db pageId page video ti r videoPath).pages ∧
             p.videoId = page.videoId ∧
             statusGet (decodeStatus w.downloadStatus) 4
               = statusGet (decodeStatus p.downloadStatus) 1))) := by
  constructor
  · intro v sp hfind hsp
    refine ⟨by simp only [retryVideoTask, hfind, hsp, if_pos hti], ?_⟩
    intro w hw hid
    simp only [retryVideoTaskOk] at hw
    obtain ⟨w₀, hw₀, heq⟩ := List.mem_map.mp hw
    by_cases h : w₀.id = id
    · rw [if_pos (by simpa using h)] at heq
      rw [← heq]
      constructor
      · show statusGet (decodeStatus (retryStatusWord v.downloadStatus ti r)) ti = _
        rw [decode_retryStatusWord _ _ hti _ hr]
        exact statusGet_set_self _ (decodeStatus_length _) ti hti _
      · intro j hj
        show statusGet (decodeStatus (retryStatusWord v.downloadStatus ti r)) j = _
        rw [decode_retryStatusWord _ _ hti _ hr]
        exact statusGet_set_ne _ _ _ _ hj
    · rw [if_neg (by simpa using h)] at heq
      rw [← heq] at hid
      exact absurd hid h
  · intro page video sp hfindp hfindv hsp
    have hvid : video.id = page.videoId := by
      have := List.find?_some hfindv
      simpa using this
    refine ⟨by simp only [retryPageTask, hfindp, hfindv, hsp, if_pos hti], ?_, ?_⟩
    · intro p hp hpid
      rw [retryPageTaskOk_pages] at hp
      obtain ⟨p₀, hp₀, heq⟩ := List.mem_map.mp hp
      by_cases h : p₀.id = pageId
      · rw [if_pos (by simpa using h)] at heq
        rw [← heq]
        constructor
        · show statusGet (decodeStatus (retryStatusWord page.downloadStatus ti r)) ti = _
          rw [decode_retryStatusWord _ _ hti _ hr]
          exact statusGet_set_self _ (decodeStatus_length _) ti hti _
        · intro j hj
          show statusGet (decodeStatus (retryStatusWord page.downloadStatus ti r)) j = _
          rw [decode_retryStatusWord _ _ hti _ hr]
          exact statusGet_set_ne _ _ _ _ hj
      · rw [if_neg (by simpa using h)] at heq
        rw [← heq] at hpid
        exact absurd hpid h
    · intro hti1 w hw hwid
      subst hti1
      simp only [retryPageTaskOk, beq_self_eq_true, if_true] at hw
      obtain ⟨w₀, hw₀, heq⟩ := List.mem_map.mp hw
      by_cases h : w₀.id = page.videoId
      · rw [if_pos (by simpa using h)] at heq
        have hmin_le : (((db.pages.map (fun p => if p.id == pageId then
              { page with downloadStatus := retryStatusWord page.downloadStatus 1 r,
                          path := some videoPath } else p)).filter
                  (fun p => p.videoId == page.videoId)).map
              (fun p => statusGet (decodeStatus p.downloadStatus) 1)).foldl min 7 ≤ 7 :=
          foldl_min_le_init _ _
        have hdec : decodeStatus w.downloadStatus
            = (decodeStatus video.downloadStatus).set 4
                ((((db.pages.map (fun p => if p.id == pageId then
                    { page with downloadStatus := retryStatusWord page.downloadStatus 1 r,
                                path := some videoPath } else p)).filter
                    (fun p => p.videoId == page.videoId)).map
                  (fun p => statusGet (decodeStatus p.downloadStatus) 1)).foldl min 7) := by
          rw [← heq]
          show decodeStatus (encodeStatus (statusSet (decodeStatus video.downloadStatus) 4 _)) = _
          rw [statusSet]
          apply decode_encode
          · rw [List.length_set]
            exact decodeStatus_length _
          · intro x hx
            rcases List.mem_or_eq_of_mem_set hx with hmem | hxeq
            · exact decodeStatus_lt_8 _ _ hmem
            · rw [hxeq]
              omega
        refine ⟨?_, ?_, ?_, ?_⟩
        · intro j hj5 hj4
          rw [hdec]
          exact statusGet_set_ne _ _ _ _ hj4
        · rw [hdec, statusGet_set_self _ (decodeStatus_length _) 4 (by omega)]
          exact hmin_le
        · intro p hp hpvid
          rw [hdec, statusGet_set_self _ (decodeStatus_length _) 4 (by omega)]
          rw [retryPageTaskOk_pages] at hp
          refine foldl_min_le_mem _ _ _ (List.mem_map.mpr ⟨p, ?_, rfl⟩)
          exact List.mem_filter.mpr ⟨hp, by simpa using hpvid⟩
        · rw [hdec, statusGet_set_self _ (decodeStatus_length _) 4 (by omega)]
          rcases foldl_min_eq_init_or_mem (((db.pages.map (fun p => if p.id == pageId then
              { page with downloadStatus := retryStatusWord page.downloadStatus 1 r,
                          path := some videoPath } else p)).filter
                (fun p => p.videoId == page.videoId)).map
              (fun p => statusGet (decodeStatus p.downloadStatus) 1)) 7 with hcase | hcase
          · exact Or.inl hcase
          · refine Or.inr ?_
            obtain ⟨p, hpmem, hpeq⟩ := List.mem_map.mp hcase
            refine ⟨p, ?_, ?_, hpeq.symm⟩
            · rw [retryPageTaskOk_pages]
              exact (List.mem_filter.mp hpmem).1
            · have := (List.mem_filter.mp hpmem).2
              simpa using this
      · rw [if_neg (by simpa using h)] at heq
        rw [← heq] at hwid
        exact absurd hwid h

/-- Witness for C2: a one-video, one-page database; retry of video
subtask 1 and page subtask 1 both succeed. -/
theorem retry_task_fixed_mask_witness :
    retryVideoTask ⟨[⟨1, 9785, some true, "", true, true, false⟩], [⟨10, 1, 40, 1, none⟩]⟩
        1 1 ExecutionStatus.succeeded "bp"
      = .ok (retryVideoTaskOk ⟨[⟨1, 9785, some true, "", true, true, false⟩],
          [⟨10, 1, 40, 1, none⟩]⟩ 1 ⟨1, 9785, some true, "", true, true, false⟩ 1
          ExecutionStatus.succeeded "bp") ∧
    retryPageTask ⟨[⟨1, 9785, some true, "", true, true, false⟩], [⟨10, 1, 40, 1, none⟩]⟩
        10 1 ExecutionStatus.succeeded "vp"
      = .ok (retryPageTaskOk ⟨[⟨1, 9785, some true, "", true, true, false⟩],
          [⟨10, 1, 40, 1, none⟩]⟩ 10 ⟨10, 1, 40, 1, none⟩
          ⟨1, 9785, some true, "", true, true, false⟩ 1 ExecutionStatus.succeeded "vp") := by
  have h := retry_task_fixed_mask
    ⟨[⟨1, 9785, some true, "", true, true, false⟩], [⟨10, 1, 40, 1, none⟩]⟩
    1 10 1 ExecutionStatus.succeeded "bp" "vp" (by decide) (by decide)
  exact ⟨(h.1 ⟨1, 9785, some true, "", true, true, false⟩ true (by decide) rfl).1,
         (h.2 ⟨10, 1, 40, 1, none⟩ ⟨1, 9785, some true, "", true, true, false⟩ true
            (by decide) (by decide) rfl).1⟩

/-! ## Reset-status endpoints (`api/routes/videos/mod.rs`)

Both endpoints guard each row with
`(request.force && status.force_reset_failed()) || status.reset_failed()`
(Rust short-circuit order) and, whenever any page of a video was reset,
also zero the video's slot 4 and write the video row in the same
transaction as its pages. -/

/-- The reset guard with Rust's `&&`/`||` short-circuit evaluation over
the mutating `force_reset_failed` / `reset_failed` calls. -/
def resetGuard (force : Bool) (s : List Nat) : List Nat × Bool :=
  if force then
    let r1 := forceResetFailed s
    if r1.2 then (r1.1, true) else resetFailed r1.1
  else resetFailed s

/-- Output of `reset_video_status` (`videos/mod.rs:148-205`): the video
row as returned, the reset pages, whether anything was reset, and
whether the video row was written in the transaction. -/
structure ResetVideoOutput where
  video : VideoRow
  resettedPages : List PageRow
  resetted : Bool
  writeVideo : Bool
deriving DecidableEq, Repr

/-- The page arm of both endpoints' `filter_map`: run the guard on the
page's word; when it reset anything, return the updated row. -/
def resetPageRow (force : Bool) (p : PageRow) : Option PageRow :=
  let r := resetGuard force (decodeStatus p.downloadStatus)
  if r.2 then some { p with downloadStatus := encodeStatus r.1 } else none

/-- The reset pages of one endpoint invocation. -/
def resetPagesList (force : Bool) (pages : List PageRow) : List PageRow :=
  pages.filterMap (resetPageRow force)

/-- Core of `reset_video_status` (`videos/mod.rs:164-199`): filter the
pages through the guard; run the guard on the video; when any page was
reset, zero video slot 4 and mark the video reset; commit video row and
reset pages in one transaction. -/
def resetVideoStatusCore (force : Bool) (video : VideoRow) (pages : List PageRow) :
    ResetVideoOutput :=
  let resettedPages := resetPagesList force pages
  let rv := resetGuard force (decodeStatus video.downloadStatus)
  let step2 : List Nat × Bool :=
    if !resettedPages.isEmpty then (statusSet rv.1 4 0, true) else rv
  let video' :=
    if step2.2 then { video with downloadStatus := encodeStatus step2.1 } else video
  { video := video', resettedPages := resettedPages,
    resetted := step2.2 || !resettedPages.isEmpty,
    writeVideo := step2.2 }

/-- The video arm of the filtered endpoint's `filter_map`: the guard on
the video's word, then slot 4 zeroed whenever the video owns a reset
page. -/
def resetFilteredVideoRow (force : Bool) (videoIdsWithPages : List Nat) (v : VideoRow) :
    Option VideoRow :=
  let rv := resetGuard force (decodeStatus v.downloadStatus)
  let step2 : List Nat × Bool :=
    if videoIdsWithPages.contains v.id then (statusSet rv.1 4 0, true) else rv
  if step2.2 then some { v with downloadStatus := encodeStatus step2.1 } else none

/-- Core of `reset_filtered_video_status` (`videos/mod.rs:276-318`): the
same guard over all filtered pages and videos; a video whose id owns a
reset page gets slot 4 zeroed and is written even if no video slot was
itself resettable.  Returns the video rows and page rows written (in one
transaction). -/
def resetFilteredCore (force : Bool) (videos : List VideoRow) (pages : List PageRow) :
    List VideoRow × List PageRow :=
  let resettedPages := resetPagesList force pages
  let videoIdsWithPages := resettedPages.map (fun p => p.videoId)
  (videos.filterMap (resetFilteredVideoRow force videoIdsWithPages), resettedPages)

theorem map_id_of_all (s : List Nat) (f : Nat → Nat) (h : ∀ v ∈ s, f v = v) :
    s.map f = s := by
  induction s with
  | nil => rfl
  | cons a tl ih =>
    rw [List.map_cons, h a (List.mem_cons_self _ _),
        ih (fun v hv => h v (List.mem_cons_of_mem _ hv))]

theorem resetFailed_false_fst (s : List Nat) (h : (resetFailed s).2 = false) :
    (resetFailed s).1 = s := by
  simp only [resetFailed, List.any_eq_true, not_exists, decide_eq_true_eq] at h ⊢
  apply map_id_of_all
  intro v hv
  rw [if_neg ?_]
  intro hc
  rw [List.any_eq_false] at h
  have := h v hv
  simp at this
  omega

theorem forceResetFailed_false_fst (s : List Nat) (h : (forceResetFailed s).2 = false) :
    (forceResetFailed s).1 = s := by
  simp only [forceResetFailed] at h ⊢
  apply map_id_of_all
  intro v hv
  rw [if_neg ?_]
  intro hc
  rw [List.any_eq_false] at h
  have := h v hv
  simp at this
  omega

theorem resetGuard_false_fst (force : Bool) (s : List Nat)
    (h : (resetGuard force s).2 = false) : (resetGuard force s).1 = s := by
  cases force with
  | false => exact resetFailed_false_fst s h
  | true =>
    simp only [resetGuard, if_true] at h ⊢
    by_cases hf : (forceResetFailed s).2
    · rw [if_pos hf] at h
      cases h
    · rw [if_neg hf] at h ⊢
      have hfst := forceResetFailed_false_fst s (by simpa using hf)
      rw [hfst] at h ⊢
      exact resetFailed_false_fst s h

theorem resetGuard_true_of_counter (force : Bool) (s : List Nat)
    (h : ∃ v ∈ s, 1 ≤ v ∧ v ≤ 6) : (resetGuard force s).2 = true := by
  obtain ⟨v, hv, h1, h6⟩ := h
  cases force with
  | false =>
    simp only [resetGuard, if_neg Bool.false_ne_true, resetFailed, List.any_eq_true]
    exact ⟨v, hv, by simp; omega⟩
  | true =>
    have hforce : (forceResetFailed s).2 = true := by
      simp only [forceResetFailed, List.any_eq_true]
      exact ⟨v, hv, by simp; omega⟩
    simp [resetGuard, hforce]

theorem resetFailed_length (s : List Nat) : (resetFailed s).1.length = s.length := by
  simp [resetFailed]

theorem forceResetFailed_length (s : List Nat) :
    (forceResetFailed s).1.length = s.length := by
  simp [forceResetFailed]

theorem resetGuard_length (force : Bool) (s : List Nat) :
    (resetGuard force s).1.length = s.length := by
  cases force with
  | false => exact resetFailed_length s
  | true =>
    simp only [resetGuard, if_true]
    by_cases hf : (forceResetFailed s).2
    · rw [if_pos hf]
      exact forceResetFailed_length s
    · rw [if_neg hf]
      exact (resetFailed_length _).trans (forceResetFailed_length s)

theorem resetGuard_lt_8 (force : Bool) (s : List Nat) (hs : ∀ v ∈ s, v < 8) :
    ∀ v ∈ (resetGuard force s).1, v < 8 := by
  have hmap : ∀ (f : Nat → Nat), (∀ v ∈ s, f v = 0 ∨ f v = v) →
      ∀ v ∈ s.map f, v < 8 := by
    intro f hf v hv
    obtain ⟨w, hw, hweq⟩ := List.mem_map.mp hv
    rcases hf w hw with h | h
    · omega
    · rw [← hweq, h]
      exact hs w hw
  cases force with
  | false =>
    intro v hv
    refine hmap _ ?_ v hv
    intro w _
    by_cases h : 1 ≤ w ∧ w ≤ 6 <;> simp [h]
  | true =>
    simp only [resetGuard, if_true]
    by_cases hf : (forceResetFailed s).2
    · rw [if_pos hf]
      intro v hv
      refine hmap _ ?_ v hv
      intro w _
      by_cases h : 1 ≤ w ∧ w ≤ 7 <;> simp [forceResetFailed, h]
    · rw [if_neg hf]
      rw [forceResetFailed_false_fst s (by simpa using hf)]
      intro v hv
      refine hmap _ ?_ v hv
      intro w _
      by_cases h : 1 ≤ w ∧ w ≤ 6 <;> simp [resetFailed, h]

theorem resetPageRow_some (force : Bool) (p : PageRow)
    (h : (resetGuard force (decodeStatus p.downloadStatus)).2 = true) :
    resetPageRow force p
      = some { p with
          downloadStatus := encodeStatus (resetGuard force (decodeStatus p.downloadStatus)).1 } := by
  simp only [resetPageRow, h, if_true]

theorem resetPageRow_none (force : Bool) (p : PageRow)
    (h : (resetGuard force (decodeStatus p.downloadStatus)).2 = false) :
    resetPageRow force p = none := by
  simp only [resetPageRow, h]
  rfl

theorem resetPagesList_nil (force : Bool) (pages : List PageRow)
    (h : ∀ p ∈ pages, (resetGuard force (decodeStatus p.downloadStatus)).2 = false) :
    resetPagesList force pages = [] := by
  rw [resetPagesList, List.filterMap_eq_nil_iff]
  intro p hp
  exact resetPageRow_none force p (h p hp)

theorem resetSlot4_zero (force : Bool) (w : Nat) :
    statusGet (decodeStatus (encodeStatus
      (statusSet (resetGuard force (decodeStatus w)).1 4 0))) 4 = 0 := by
  rw [statusSet, decode_encode _ ?hlen ?hlt]
  case hlen =>
    rw [List.length_set, resetGuard_length]
    exact decodeStatus_length w
  case hlt =>
    intro x hx
    rcases List.mem_or_eq_of_mem_set hx with hmem | hxeq
    · exact resetGuard_lt_8 force _ (decodeStatus_lt_8 w) x hmem
    · omega
  exact statusGet_set_self _
    (by rw [resetGuard_length]; exact decodeStatus_length w) 4 (by omega) 0

/-- C9: in both reset-status endpoints, every video owning at least one
page with an attempt counter (slot value in 1..=6, hence reset to 0 by
the guard) gets its slot 4 zeroed and its row written in the same
transaction as its pages — even when no video-level slot was itself
eligible — while a video with no resettable video slots and no
resettable pages is left entirely unchanged. -/
theorem reset_status_page_propagates_to_video
    (force : Bool) (video : VideoRow) (pages : List PageRow)
    (videos : List VideoRow) (fpages : List PageRow) :
    ((∃ p ∈ pages, ∃ v ∈ decodeStatus p.downloadStatus, 1 ≤ v ∧ v ≤ 6) →
      (resetVideoStatusCore force video pages).writeVideo = true ∧
      statusGet
        (decodeStatus (resetVideoStatusCore force video pages).video.downloadStatus) 4 = 0 ∧
      (resetVideoStatusCore force video pages).resettedPages ≠ []) ∧
    (((resetGuard force (decodeStatus video.downloadStatus)).2 = false ∧
      ∀ p ∈ pages, (resetGuard force (decodeStatus p.downloadStatus)).2 = false) →
      (resetVideoStatusCore force video pages).video = video ∧
      (resetVideoStatusCore force video pages).resettedPages = [] ∧
      (resetVideoStatusCore force video pages).resetted = false ∧
      (resetVideoStatusCore force video pages).writeVideo = false) ∧
    (∀ v ∈ videos, ∀ p ∈ fpages, p.videoId = v.id →
      (∃ x ∈ decodeStatus p.downloadStatus, 1 ≤ x ∧ x ≤ 6) →
      ∃ v' ∈ (resetFilteredCore force videos fpages).1, v'.id = v.id ∧
        statusGet (decodeStatus v'.downloadStatus) 4 = 0) ∧
    ((∀ v ∈ videos, (resetGuard force (decodeStatus v.downloadStatus)).2 = false) →
     (∀ p ∈ fpages, (resetGuard force (decodeStatus p.downloadStatus)).2 = false) →
      (resetFilteredCore force videos fpages).1 = [] ∧
      (resetFilteredCore force videos fpages).2 = []) := by
  refine ⟨?_, ?_, ?_, ?_⟩
  · rintro ⟨p, hp, hc⟩
    have hguard := resetGuard_true_of_counter force (decodeStatus p.downloadStatus) hc
    have hmem : ({ p with
          downloadStatus := encodeStatus (resetGuard force (decodeStatus p.downloadStatus)).1 } : PageRow)
          ∈ resetPagesList force pages :=
      List.mem_filterMap.mpr ⟨p, hp, resetPageRow_some force p hguard⟩
    have hempty : (resetPagesList force pages).isEmpty = false := by
      rcases hE : (resetPagesList force pages).isEmpty with _ | _
      · rfl
      · rw [List.isEmpty_iff] at hE
        rw [hE] at hmem
        cases hmem
    simp only [resetVideoStatusCore, hempty, Bool.not_false, if_true]
    refine ⟨by trivial, resetSlot4_zero force video.downloadStatus, ?_⟩
    intro hnil
    rw [hnil] at hmem
    cases hmem
  · rintro ⟨hv, hps⟩
    have hnil := resetPagesList_nil force pages hps
    simp [resetVideoStatusCore, hnil, hv]
  · intro v hvmem p hpmem hpvid hc
    have hguard := resetGuard_true_of_counter force (decodeStatus p.downloadStatus) hc
    have hmem : ({ p with
          downloadStatus := encodeStatus (resetGuard force (decodeStatus p.downloadStatus)).1 } : PageRow)
          ∈ resetPagesList force fpages :=
      List.mem_filterMap.mpr ⟨p, hpmem, resetPageRow_some force p hguard⟩
    have hcontains : ((resetPagesList force fpages).map (fun q => q.videoId)).contains v.id
        = true := by
      have hin : v.id ∈ (resetPagesList force fpages).map (fun q => q.videoId) :=
        List.mem_map.mpr ⟨_, hmem, hpvid⟩
      exact List.elem_eq_true_of_mem hin
    refine ⟨{ v with
        downloadStatus := encodeStatus (statusSet (resetGuard force (decodeStatus v.downloadStatus)).1 4 0) },
      ?_, rfl, resetSlot4_zero force v.downloadStatus⟩
    simp only [resetFilteredCore]
    refine List.mem_filterMap.mpr ⟨v, hvmem, ?_⟩
    simp only [resetFilteredVideoRow, hcontains, if_true]
  · intro hvs hps
    have hnil := resetPagesList_nil force fpages hps
    refine ⟨?_, by simp only [resetFilteredCore, hnil]⟩
    simp only [resetFilteredCore, hnil, List.map_nil]
    rw [List.filterMap_eq_nil_iff]
    intro v hv
    simp only [resetFilteredVideoRow, List.map_nil]
    rw [if_neg ?hc]
    case hc =>
      rw [if_neg (by simp)]
      rw [hvs v hv]
      simp

/-- Witness for C9: a fully succeeded video (word 32767 = all slots 7)
whose only page failed its video-download subtask three times (word 24 =
slot 1 value 3): a non-force reset resets the page and zeroes the
video's slot 4, writing the video row. -/
theorem reset_status_page_propagates_to_video_witness :
    (resetVideoStatusCore false ⟨1, 32767, some true, "", true, true, false⟩
      [⟨10, 1, 24, 1, none⟩]).writeVideo = true ∧
    statusGet (decodeStatus (resetVideoStatusCore false
      ⟨1, 32767, some true, "", true, true, false⟩
      [⟨10, 1, 24, 1, none⟩]).video.downloadStatus) 4 = 0 ∧
    (resetVideoStatusCore false ⟨1, 32767, some true, "", true, true, false⟩
      [⟨10, 1, 24, 1, none⟩]).resettedPages ≠ [] := by
  have h := reset_status_page_propagates_to_video false
    ⟨1, 32767, some true, "", true, true, false⟩ [⟨10, 1, 24, 1, none⟩] [] []
  exact h.1 (by decide)

/-! ## Daily summary (`task/daily_summary.rs`) -/

/-- The six per-video counts of the daily-summary message. -/
structure DailySummaryCounts where
  total : Nat
  succeeded : Nat
  failed : Nat
  waiting : Nat
  skipped : Nat
  paid : Nat
deriving DecidableEq, Repr

/-- The count queries of `generate_daily_summary`
(`daily_summary.rs:63-144`): each is a `count` over the `video` table
with exactly the filters the source chains (status predicates are the
spec-modelled Status-Codec query builders). -/
def generateDailySummaryCounts (videos : List VideoRow) : DailySummaryCounts :=
  { total := videos.length,
    succeeded := (videos.filter (fun v => succeededPred v.downloadStatus)).length,
    failed := (videos.filter (fun v => failedPred v.downloadStatus && v.valid)).length,
    waiting := (videos.filter (fun v =>
      waitingPred v.downloadStatus && v.shouldDownload && !v.isPaidVideo)).length,
    skipped := (videos.filter (fun v => !v.shouldDownload && !v.isPaidVideo)).length,
    paid := (videos.filter (fun v => v.isPaidVideo)).length }

/-- C7: the daily-summary counts are: `total` over all video rows;
`succeeded` for the all-slots-7 predicate with no further filter;
`failed` for the some-slot-in-1..=6 predicate **and** `valid = true`;
`waiting` for the all-slots-0 predicate and `should_download = true` and
`is_paid_video = false`; `skipped` for `should_download = false` and
`is_paid_video = false`; `paid` for `is_paid_video = true`.  Only the
failed count filters on `valid`: marking every row invalid zeroes the
failed count and leaves all five other counts unchanged. -/
theorem daily_summary_counts_spec (videos : List VideoRow) :
    (generateDailySummaryCounts videos).total = videos.length ∧
    (generateDailySummaryCounts videos).succeeded
      = videos.countP (fun (v : VideoRow) => decide (∀ s ∈ decodeStatus v.downloadStatus, s = 7)) ∧
    (generateDailySummaryCounts videos).failed
      = videos.countP (fun (v : VideoRow) =>
          decide ((∃ s ∈ decodeStatus v.downloadStatus, 1 ≤ s ∧ s ≤ 6) ∧ v.valid = true)) ∧
    (generateDailySummaryCounts videos).waiting
      = videos.countP (fun (v : VideoRow) =>
          decide ((∀ s ∈ decodeStatus v.downloadStatus, s = 0) ∧
            v.shouldDownload = true ∧ v.isPaidVideo = false)) ∧
    (generateDailySummaryCounts videos).skipped
      = videos.countP (fun (v : VideoRow) => decide (v.shouldDownload = false ∧ v.isPaidVideo = false)) ∧
    (generateDailySummaryCounts videos).paid
      = videos.countP (fun (v : VideoRow) => v.isPaidVideo) ∧
    (generateDailySummaryCounts (videos.map (fun v => { v with valid := false }))).failed
      = 0 ∧
    (generateDailySummaryCounts (videos.map (fun v => { v with valid := false }))).total
      = (generateDailySummaryCounts videos).total ∧
    (generateDailySummaryCounts (videos.map (fun v => { v with valid := false }))).succeeded
      = (generateDailySummaryCounts videos).succeeded ∧
    (generateDailySummaryCounts (videos.map (fun v => { v with valid := false }))).waiting
      = (generateDailySummaryCounts videos).waiting ∧
    (generateDailySummaryCounts (videos.map (fun v => { v with valid := false }))).skipped
      = (generateDailySummaryCounts videos).skipped ∧
    (generateDailySummaryCounts (videos.map (fun v => { v with valid := false }))).paid
      = (generateDailySummaryCounts videos).paid := by
  simp only [generateDailySummaryCounts]
  refine ⟨by trivial, ?_, ?_, ?_, ?_, ?_, ?_, by simp, ?_, ?_, ?_, ?_⟩
  · rw [← List.countP_eq_length_filter]
    apply List.countP_congr
    intro v _
    simp [succeededPred, List.all_eq_true]
  · rw [← List.countP_eq_length_filter]
    apply List.countP_congr
    intro v _
    simp [failedPred, List.any_eq_true]
  · rw [← List.countP_eq_length_filter]
    apply List.countP_congr
    intro v _
    simp [waitingPred, List.all_eq_true, and_assoc]
  · rw [← List.countP_eq_length_filter]
    apply List.countP_congr
    intro v _
    simp
  · rw [← List.countP_eq_length_filter]
  · rw [List.filter_map, List.length_map, List.length_eq_zero, List.filter_eq_nil_iff]
    intro v _
    simp
  · rw [List.filter_map, List.length_map]
    congr 1
  · rw [List.filter_map, List.length_map]
    congr 1
  · rw [List.filter_map, List.length_map]
    congr 1
  · rw [List.filter_map, List.length_map]
    congr 1

/-! ## Config validation (`config/current.rs`) -/

/-- The `interval` trigger: plain seconds or a six-field cron. -/
inductive Trigger where
  | interval (secs : Nat)
  | cron (expr : String)
deriving DecidableEq, Repr

/-- The five credential strings checked by `Config::check`. -/
structure Credential where
  sessdata : String
  biliJct : String
  buvid3 : String
  dedeuserid : String
  acTimeValue : String
deriving DecidableEq, Repr

/-- `concurrent_limit`. -/
structure ConcurrentLimit where
  video : Nat
  page : Nat
deriving DecidableEq, Repr

/-- The configuration fields read by `Config::check`
(`config/current.rs:76-143`).  `upper_path.is_absolute()` is carried as
a boolean attribute of the stored path. -/
structure Config where
  upperPathIsAbsolute : Bool
  videoName : String
  pageName : String
  credential : Credential
  concurrentLimit : ConcurrentLimit
  interval : Trigger
  dailySummaryCron : String
  enableNotificationQuietHours : Bool
  quietHoursStart : Nat
  quietHoursEnd : Nat
deriving DecidableEq, Repr

def intervalTooSmallError : String := "下载任务执行间隔时间必须大于 60 秒"

/-- The error collection of `Config::check` in source order.  The cron
parser (`croner`) is an external collaborator passed as `cronValid`. -/
def configCheckErrors (cronValid : String → Bool) (c : Config) : List String :=
  (if !c.upperPathIsAbsolute then ["up 主头像保存的路径应为绝对路径"] else []) ++
  (if c.videoName.isEmpty then ["未设置 video_name 模板"] else []) ++
  (if c.pageName.isEmpty then ["未设置 page_name 模板"] else []) ++
  (if c.credential.sessdata.isEmpty || c.credential.biliJct.isEmpty ||
      c.credential.buvid3.isEmpty || c.credential.dedeuserid.isEmpty ||
      c.credential.acTimeValue.isEmpty then
    ["Credential 信息不完整，请确保填写完整"] else []) ++
  (if !(c.concurrentLimit.video > 0 && c.concurrentLimit.page > 0) then
    ["video 和 page 允许的并发数必须大于 0"] else []) ++
  (match c.interval with
   | .interval secs => if secs ≤ 60 then [intervalTooSmallError] else []
   | .cron cron =>
     if !cronValid cron then ["Cron 表达式无效，正确格式为：秒 分 时 日 月 周"] else []) ++
  (if !cronValid c.dailySummaryCron then
    ["每日汇总任务的 Cron 表达式无效，正确格式为：秒 分 时 日 月 周"] else []) ++
  (if c.enableNotificationQuietHours &&
      (c.quietHoursStart > 23 || c.quietHoursEnd > 23) then
    ["静默时间段的开始和结束时间必须在 0-23 之间"] else [])

/-- `Config::check`: `Ok` iff no error was collected (the Rust code then
joins the errors into one multi-line message). -/
def configCheck (cronValid : String → Bool) (c : Config) : Except (List String) Unit :=
  if configCheckErrors cronValid c = [] then .ok () else .error (configCheckErrors cronValid c)

/-- An otherwise-valid configuration used for the boundary checks. -/
def goodConfig (t : Trigger) : Config :=
  { upperPathIsAbsolute := true, videoName := "v", pageName := "p",
    credential := ⟨"s", "j", "b", "d", "a"⟩, concurrentLimit := ⟨3, 2⟩,
    interval := t, dailySummaryCron := "0 30 9 * * *",
    enableNotificationQuietHours := false, quietHoursStart := 22, quietHoursEnd := 9 }

theorem mem_ite_singleton (x s : String) (b : Prop) [Decidable b] :
    x ∈ (if b then [s] else ([] : List String)) ↔ b ∧ x = s := by
  split <;> simp_all

/-- C8: `Config::check` emits the interval validation error for an
interval-typed trigger iff the value in seconds is at most 60 — the
minimum is exclusive — so a passing check implies `secs > 60`; on an
otherwise-valid configuration, `interval = 61` passes and
`interval = 60` is rejected. -/
theorem config_check_interval_exclusive_minimum
    (cronValid : String → Bool) (c : Config) (secs : Nat)
    (hint : c.interval = Trigger.interval secs) :
    (intervalTooSmallError ∈ configCheckErrors cronValid c ↔ secs ≤ 60) ∧
    ((configCheck cronValid c).isOk = true → 60 < secs) ∧
    configCheck (fun _ => true) (goodConfig (Trigger.interval 61)) = .ok () ∧
    (configCheck (fun _ => true) (goodConfig (Trigger.interval 60))).isOk = false := by
  have hiff : intervalTooSmallError ∈ configCheckErrors cronValid c ↔ secs ≤ 60 := by
    simp [configCheckErrors, hint, intervalTooSmallError, mem_ite_singleton]
  refine ⟨hiff, ?_, by rfl, by rfl⟩
  intro hok
  by_contra hgt
  have hle : secs ≤ 60 := by omega
  have hmem := hiff.mpr hle
  by_cases herr : configCheckErrors cronValid c = []
  · rw [herr] at hmem
    cases hmem
  · rw [configCheck, if_neg herr] at hok
    cases hok

/-- Witness for C8: on the otherwise-valid configuration, `interval = 60`
emits the interval error and `interval = 61` passes the whole check. -/
theorem config_check_interval_exclusive_minimum_witness :
    intervalTooSmallError
      ∈ configCheckErrors (fun _ => true) (goodConfig (Trigger.interval 60)) ∧
    configCheck (fun _ => true) (goodConfig (Trigger.interval 61)) = .ok () := by
  have h := config_check_interval_exclusive_minimum (fun _ => true)
    (goodConfig (Trigger.interval 60)) 60 rfl
  exact ⟨h.1.mpr (by omega), h.2.2.1⟩

end BiliSync
